import Mathlib

/-!
Shallow embedding of the `auto-shorts/youtube-downloader` notebooks.

Part 1 models the async scratch notebook (`src/unnamed/part_000`):
`to_async`, the module-level `ThreadPoolExecutor(1)` bound to `_executor`,
the decorated `api_func`, and the `asyncio.gather` fan-out in `main`.

Part 2 models `src/notebooks/aggregated_stats.ipynb`: the `all_data`
loop over the S3 bucket, the DataFrame construction, the single SQL
query, the merge on `s3_path`, and the grouped aggregation.
-/

namespace AutoShorts

/-- A Python exception value (identified by a message). -/
inductive PyExc : Type
  | exc : String → PyExc
deriving DecidableEq, Repr

/-- Outcome of calling a Python callable: a returned value or a raised
exception. -/
abbrev PyResult (α : Type) := Except PyExc α

/-- The executors visible in the notebook: the event loop's default
`ThreadPoolExecutor`, and the `ThreadPoolExecutor(1)` created in cell 3. -/
inductive Executor : Type
  | defaultPool
  | threadPool1
deriving DecidableEq, Repr

/-- The module-level single-worker pool created in cell 3 of the
notebook: `_executor = ThreadPoolExecutor(1)`. -/
def the_executor : Executor := Executor.threadPool1

/-- The observable effect of `loop.run_in_executor(executor, pfunc)`:
which executor the callable was submitted to, and the result awaiting
the returned future produces. -/
structure Submission (α : Type) where
  executor : Executor
  result : PyResult α
deriving Repr

/-- Model of `pfunc = partial(func, *args, **kwargs)`: freeze the
arguments into a thunk. -/
def pfuncOf (func : β → PyResult α) (args : β) : Unit → PyResult α :=
  fun _ => func args

/-- Model of `loop.run_in_executor(executor, pfunc)`: when `executor` is `None`
the loop submits to its default executor, otherwise to the given one;
awaiting the future yields the callable's result (value or exception). -/
def run_in_executor (executor : Option Executor) (pfunc : Unit → PyResult α) :
    Submission α :=
  { executor := executor.getD Executor.defaultPool, result := pfunc () }

/-- Model of `to_async(func)`: it returns the coroutine function `run`: applied to the
arguments and the keyword-only `executor` (defaulting to `None`), awaiting
it runs `partial(func, *args, **kwargs)` on the chosen executor. -/
def to_async (func : β → PyResult α) :
    β → Option Executor → Submission α :=
  fun args executor => run_in_executor executor (pfuncOf func args)

/-- Awaiting the coroutine: the value the `await` expression evaluates to,
or the exception it re-raises. -/
def awaitCoro (s : Submission α) : PyResult α := s.result

/-- The body of `api_func`: `sleep(3); return 1` (the sleep has no
observable result, so the body is the constant callable returning `1`). -/
def api_func_body : Unit → PyResult Int := fun _ => Except.ok 1

/-- The function `api_func` after the `@to_async` decoration. -/
def api_func : Unit → Option Executor → Submission Int :=
  to_async api_func_body

/-- Model of `call_api_func`: `result = await api_func(); return result` — `api_func`
is called with no `executor` argument, so `executor = None`. -/
def call_api_func : Submission Int := api_func () none

/-- The four submissions dispatched by `asyncio.gather` in `main`. -/
def mainSubmissions : List (Submission Int) :=
  [call_api_func, call_api_func, call_api_func, call_api_func]

/-- Result slots of `asyncio.gather`: each awaited task writes its own slot;
`order` is the sequence in which tasks complete. -/
def gatherSlots (results : List α) (order : List Nat) : Nat → Option α :=
  order.foldl (fun slots i => fun j => if j = i then results.get? i else slots j)
    (fun _ => none)

/-- Model of `asyncio.gather`: after every task completed (in completion order
`order`), the slots are read back in submission order. -/
def gatherRun (dflt : α) (results : List α) (order : List Nat) : List α :=
  (List.range results.length).map (fun j => (gatherSlots results order j).getD dflt)

/-- The list `a` printed by `main`, for a given completion order of the
four gathered coroutines: each task's awaited value, collected by
`asyncio.gather`. -/
def mainPrinted (order : List Nat) : List (PyResult Int) :=
  gatherRun (Except.ok 0) (mainSubmissions.map awaitCoro) order

/-! Part 2: `src/notebooks/aggregated_stats.ipynb` -/

/-- One element of the JSON's `most_watched_moments` list: an object that
may or may not carry the `time_end_ms` key. -/
structure Moment where
  time_end_ms : Option Int
deriving DecidableEq, Repr

/-- The parsed `video_data.json` payload. -/
structure VidData where
  most_watched_moments : List Moment
deriving DecidableEq, Repr

/-- An object of the `auto-shorts` bucket: its key, and the outcome of
`bucket.download_file(obj.key, target)` followed by `json.load(f)` on the
downloaded file (the parsed payload, or the exception that step raises). -/
structure S3Obj where
  key : String
  payload : PyResult VidData

/-- Prefix test on character lists. -/
def prefChars : List Char → List Char → Bool
  | [], _ => true
  | _ :: _, [] => false
  | a :: as, b :: bs => a = b && prefChars as bs

/-- Substring occurrence on character lists. -/
def substrChars (p : List Char) : List Char → Bool
  | [] => p.isEmpty
  | b :: bs => prefChars p (b :: bs) || substrChars p bs

/-- The Python expression `needle in hay` on strings. -/
def pyIn (needle hay : String) : Bool := substrChars needle.data hay.data

/-- Python `s.split('/')` on character lists. -/
def splitSlash : List Char → List (List Char)
  | [] => [[]]
  | c :: rest =>
    if c = '/' then [] :: splitSlash rest
    else
      match splitSlash rest with
      | [] => [[c]]
      | g :: gs => (c :: g) :: gs

/-- Python `'/'.join(groups)` on character lists. -/
def joinSlash : List (List Char) → List Char
  | [] => []
  | [g] => g
  | g :: rest => g ++ '/' :: joinSlash rest

/-- Model of `vid_path = '/'.join(obj.key.split('/')[:-1])`: the object key with
its last `/`-separated component removed. -/
def vid_path (key : String) : String :=
  String.mk (joinSlash (splitSlash key.data).dropLast)

/-- The exception raised by `list[-1]` on an empty list. -/
def indexError : PyExc := PyExc.exc "IndexError"

/-- The exception raised by `d['time_end_ms']` when the key is absent. -/
def keyError : PyExc := PyExc.exc "KeyError"

/-- Model of `vid_len = vid_data['most_watched_moments'][-1]['time_end_ms']/1000`:
indexing `[-1]` raises `IndexError` on an empty list, the key lookup
raises `KeyError` when absent; Python's `/` is exact division here,
modelled in `ℚ`. -/
def vid_len (vid_data : VidData) : PyResult ℚ :=
  match vid_data.most_watched_moments.getLast? with
  | none => Except.error indexError
  | some m =>
    match m.time_end_ms with
    | none => Except.error keyError
    | some t => Except.ok ((t : ℚ) / 1000)

/-- Python `dict` lookup. -/
def dictLookup (k : String) : List (String × ℚ) → Option ℚ
  | [] => none
  | (k', v) :: rest => if k' = k then some v else dictLookup k rest

/-- Python `d[k] = v`: overwrite in place when the key is present,
append otherwise. -/
def dictInsert (k : String) (v : ℚ) : List (String × ℚ) → List (String × ℚ)
  | [] => [(k, v)]
  | (k', v') :: rest =>
    if k' = k then (k, v) :: rest else (k', v') :: dictInsert k v rest

/-- One iteration of the `all_data` loop body on the current dictionary:
skip objects whose key does not contain `'video_data.json'`; otherwise
download and parse (which may raise), compute `vid_path` and `vid_len`
(which may raise), and store `all_data[vid_path] = vid_len`. -/
def cell2Step (d : List (String × ℚ)) (obj : S3Obj) : PyResult (List (String × ℚ)) :=
  if pyIn "video_data.json" obj.key then
    match obj.payload with
    | Except.error e => Except.error e
    | Except.ok vd =>
      match vid_len vd with
      | Except.error e => Except.error e
      | Except.ok l => Except.ok (dictInsert (vid_path obj.key) l d)
  else Except.ok d

/-- The matching predicate of the `all_data` loop:
`'video_data.json' in obj.key`. -/
def isVidObj (o : S3Obj) : Bool := pyIn "video_data.json" o.key

/-- The `all_data` loop of cell 2, over `bucket.objects.all()` in
iteration order, starting from the empty dictionary; an exception raised
by any iteration terminates the cell. -/
def all_data (objs : List S3Obj) : PyResult (List (String × ℚ)) :=
  objs.foldlM cell2Step []

/-- One row of `df = pd.DataFrame(list(all_data.items()), columns=['s3_path', 'vid_len'])`. -/
structure DfRow where
  s3_path : String
  vid_len : ℚ
deriving DecidableEq, Repr

/-- Cell 3: the DataFrame rows, one per `all_data` item in order. -/
def dfOf (d : List (String × ℚ)) : List DfRow :=
  d.map (fun kv => ⟨kv.1, kv.2⟩)

/-- One row of the `autoshorts.videos` table; `SELECT *` returns every
column, the notebook keeps only `s3_path` and `category_id`. -/
structure VideoRow where
  s3_path : String
  category_id : Int
  otherColumns : List String

/-- The SQL queries the notebook issues. -/
def sqlQueries : List String := ["SELECT * FROM autoshorts.videos"]

/-- Model of `df_vids = pd.read_sql_query(...)[['s3_path', 'category_id']]`: the
projection of the query result onto the two kept columns. -/
def df_vids (videos : List VideoRow) : List (String × Int) :=
  videos.map (fun v => (v.s3_path, v.category_id))

/-- One row of `final_df = df.merge(df_vids, on='s3_path')`. -/
structure FinalRow where
  s3_path : String
  vid_len : ℚ
  category_id : Int
deriving DecidableEq, Repr

/-- Model of `df.merge(df_vids, on='s3_path')`: inner equi-join, one output row
per pair of rows agreeing on `s3_path`. -/
def final_df (df : List DfRow) (vids : List (String × Int)) : List FinalRow :=
  df.flatMap (fun r =>
    (vids.filter (fun v => v.1 == r.s3_path)).map
      (fun v => ⟨r.s3_path, r.vid_len, v.2⟩))

/-- Model of `final_df.groupby('category_id')['vid_len']`: the `vid_len` values of
the rows in category `c`, in row order. -/
def groupValues (rows : List FinalRow) (c : Int) : List ℚ :=
  (rows.filter (fun r => r.category_id == c)).map (fun r => r.vid_len)

/-- The `'min'` aggregate: the least value of the group. -/
def aggMin : List ℚ → Option ℚ
  | [] => none
  | x :: xs => some (xs.foldl min x)

/-- The `'max'` aggregate: the greatest value of the group. -/
def aggMax : List ℚ → Option ℚ
  | [] => none
  | x :: xs => some (xs.foldl max x)

/-- The `'count'` aggregate: the number of values of the group. -/
def aggCount (g : List ℚ) : Nat := g.length

/-- The `'mean'` aggregate: the arithmetic mean of the group. -/
def aggMean (g : List ℚ) : ℚ := g.sum / g.length

/-- The `'std'` aggregate, squared: pandas computes the sample standard
deviation with `ddof = 1`, the square root of this quantity, and returns
`NaN` (here `none`) for a group with fewer than two values. -/
def aggVar (g : List ℚ) : Option ℚ :=
  if g.length ≤ 1 then none
  else some ((g.map (fun x => (x - aggMean g) ^ 2)).sum / ((g.length : ℚ) - 1))

/-- The `'median'` aggregate: sort ascending, take the middle value, or
the mean of the two middle values when the group has even size. -/
def aggMedian (g : List ℚ) : ℚ :=
  let s := List.insertionSort (· ≤ ·) g
  if s.length % 2 = 1 then s.getD (s.length / 2) 0
  else (s.getD (s.length / 2 - 1) 0 + s.getD (s.length / 2) 0) / 2

/-- One column of the transposed aggregation output of cell 9: the six
aggregates of one category's `vid_len` values. -/
structure AggRow where
  min : Option ℚ
  max : Option ℚ
  std_sq : Option ℚ
  mean : ℚ
  count : Nat
  median : ℚ

/-- Model of `final_df.groupby('category_id')['vid_len'].agg(['min', 'max', 'std',
'mean', 'count', 'median'])`, restricted to category `c` (the `std` field
is recorded by its square, `aggVar`). -/
def aggregate (rows : List FinalRow) (c : Int) : AggRow :=
  let g := groupValues rows c
  ⟨aggMin g, aggMax g, aggVar g, aggMean g, aggCount g, aggMedian g⟩

/-- Population variance: the square of the textbook standard deviation
`σ = sqrt((1/n) Σ (x − μ)²)`. Spec-side definition (the claim's "standard
mathematical definition"), for comparison with the pandas aggregate. -/
def popVar (g : List ℚ) : ℚ :=
  ((g.map (fun x => (x - aggMean g) ^ 2)).sum) / g.length

theorem gatherSlots_eq (results : List α) (order : List Nat) (j : Nat) :
    gatherSlots results order j =
      if j ∈ order then results.get? j else none := by
  suffices h : ∀ (init : Nat → Option α),
      (order.foldl (fun slots i => fun j => if j = i then results.get? i else slots j)
        init) j = if j ∈ order then results.get? j else init j by
    simpa [gatherSlots] using h (fun _ => none)
  induction order with
  | nil => intro init; simp
  | cons i rest ih =>
      intro init
      simp only [List.foldl_cons, ih, List.mem_cons]
      by_cases hmem : j ∈ rest
      · simp [hmem]
      · by_cases hji : j = i
        · subst hji; simp [hmem]
        · simp [hmem, hji]

theorem gatherRun_perm (dflt : α) (results : List α) (order : List Nat)
    (h : order.Perm (List.range results.length)) :
    gatherRun dflt results order = results := by
  apply List.ext_get
  · simp [gatherRun]
  · intro i h1 h2
    simp only [gatherRun, List.getElem_map, List.getElem_range]
    have hlen : i < results.length := by
      simpa [gatherRun] using h1
    have hmem : i ∈ order := h.mem_iff.2 (List.mem_range.2 hlen)
    simp [gatherSlots_eq, hmem, List.getElem?_eq_getElem hlen]

theorem dictLookup_insert_self (k : String) (v : ℚ) (d : List (String × ℚ)) :
    dictLookup k (dictInsert k v d) = some v := by
  induction d with
  | nil => simp [dictInsert, dictLookup]
  | cons kv rest ih =>
      obtain ⟨k', v'⟩ := kv
      by_cases h : k' = k
      · simp [dictInsert, dictLookup, h]
      · simp [dictInsert, dictLookup, h, ih]

theorem dictLookup_insert_ne (p k : String) (v : ℚ) (d : List (String × ℚ))
    (h : k ≠ p) : dictLookup p (dictInsert k v d) = dictLookup p d := by
  induction d with
  | nil => simp [dictInsert, dictLookup, h]
  | cons kv rest ih =>
      obtain ⟨k', v'⟩ := kv
      by_cases h1 : k' = k
      · subst h1
        simp [dictInsert, dictLookup, h]
      · by_cases h2 : k' = p
        · have h3 : ¬p = k := fun hh => h hh.symm
          simp [dictInsert, dictLookup, h1, h2, h3]
        · simp [dictInsert, dictLookup, h1, h2, ih]

theorem mem_keys_dictInsert (a k : String) (v : ℚ) (d : List (String × ℚ))
    (h : a ∈ (dictInsert k v d).map Prod.fst) :
    a = k ∨ a ∈ d.map Prod.fst := by
  induction d with
  | nil => simpa [dictInsert] using h
  | cons kv rest ih =>
      obtain ⟨k', v'⟩ := kv
      by_cases h1 : k' = k
      · simp only [dictInsert, h1, if_pos] at h
        rcases List.mem_cons.1 h with h2 | h2
        · exact Or.inl h2
        · exact Or.inr (List.mem_cons.2 (Or.inr h2))
      · simp only [dictInsert, h1, if_neg, not_false_iff, List.map_cons] at h
        rcases List.mem_cons.1 h with h2 | h2
        · exact Or.inr (by simp [h2])
        · rcases ih h2 with h3 | h3
          · exact Or.inl h3
          · exact Or.inr (by simp [h3])

theorem nodup_keys_dictInsert (k : String) (v : ℚ) (d : List (String × ℚ))
    (h : (d.map Prod.fst).Nodup) :
    ((dictInsert k v d).map Prod.fst).Nodup := by
  induction d with
  | nil => simp [dictInsert]
  | cons kv rest ih =>
      obtain ⟨k', v'⟩ := kv
      simp only [List.map_cons, List.nodup_cons] at h
      by_cases h1 : k' = k
      · subst h1
        simpa [dictInsert, List.nodup_cons] using h
      · have h4 : dictInsert k v ((k', v') :: rest) = (k', v') :: dictInsert k v rest := by
          simp [dictInsert, h1]
        rw [h4, List.map_cons]
        refine List.nodup_cons.2 ⟨?_, ih h.2⟩
        intro hmem
        rcases mem_keys_dictInsert _ _ _ _ hmem with h2 | h2
        · exact h1 h2
        · exact h.1 h2

theorem cell2Step_skip (d : List (String × ℚ)) (o : S3Obj)
    (h : isVidObj o = false) : cell2Step d o = Except.ok d := by
  simp [cell2Step, isVidObj] at h ⊢
  simp [h]

theorem cell2Step_store (d : List (String × ℚ)) (o : S3Obj) (vd : VidData) (l : ℚ)
    (h : isVidObj o = true) (hp : o.payload = Except.ok vd)
    (hl : vid_len vd = Except.ok l) :
    cell2Step d o = Except.ok (dictInsert (vid_path o.key) l d) := by
  simp [cell2Step, isVidObj] at h ⊢
  simp [h, hp, hl]

theorem cell2Step_ok_cases (d d' : List (String × ℚ)) (o : S3Obj)
    (h : cell2Step d o = Except.ok d') :
    d' = d ∨ (isVidObj o = true ∧ ∃ l, d' = dictInsert (vid_path o.key) l d) := by
  by_cases hm : pyIn "video_data.json" o.key
  · cases hp : o.payload with
    | error e =>
        have he : cell2Step d o = Except.error e := by simp [cell2Step, hm, hp]
        rw [he] at h
        exact absurd h (by simp)
    | ok vd =>
        cases hl : vid_len vd with
        | error e =>
            have he : cell2Step d o = Except.error e := by
              simp [cell2Step, hm, hp, hl]
            rw [he] at h
            exact absurd h (by simp)
        | ok l =>
            have he : cell2Step d o = Except.ok (dictInsert (vid_path o.key) l d) := by
              simp [cell2Step, hm, hp, hl]
            rw [he] at h
            injection h with h
            exact Or.inr ⟨by simpa [isVidObj] using hm, l, h.symm⟩
  · rw [cell2Step_skip d o (by simpa [isVidObj] using hm)] at h
    injection h with h
    exact Or.inl h.symm

theorem foldlM_cell2_cons_ok (o : S3Obj) (rest : List S3Obj)
    (d0 d1 : List (String × ℚ)) (h : cell2Step d0 o = Except.ok d1) :
    (o :: rest).foldlM cell2Step d0 = rest.foldlM cell2Step d1 := by
  rw [List.foldlM_cons, h]; rfl

theorem foldlM_cell2_cons_error (o : S3Obj) (rest : List S3Obj)
    (d0 : List (String × ℚ)) (e : PyExc) (h : cell2Step d0 o = Except.error e) :
    (o :: rest).foldlM cell2Step d0 = Except.error e := by
  rw [List.foldlM_cons, h]; rfl

theorem foldlM_cell2_ok_of_wf (objs : List S3Obj)
    (hwf : ∀ o ∈ objs, isVidObj o = true →
      ∃ vd l, o.payload = Except.ok vd ∧ vid_len vd = Except.ok l) :
    ∀ d0, ∃ dres, objs.foldlM cell2Step d0 = Except.ok dres := by
  induction objs with
  | nil => intro d0; exact ⟨d0, rfl⟩
  | cons o rest ih =>
      intro d0
      have hwfrest : ∀ o' ∈ rest, isVidObj o' = true →
          ∃ vd l, o'.payload = Except.ok vd ∧ vid_len vd = Except.ok l :=
        fun o' h' => hwf o' (List.mem_cons_of_mem _ h')
      by_cases hm : isVidObj o = true
      · obtain ⟨vd, l, hp, hl⟩ := hwf o (List.mem_cons_self _ _) hm
        obtain ⟨dres, hres⟩ := ih hwfrest (dictInsert (vid_path o.key) l d0)
        exact ⟨dres, by
          rw [foldlM_cell2_cons_ok o rest d0 _ (cell2Step_store d0 o vd l hm hp hl)]
          exact hres⟩
      · obtain ⟨dres, hres⟩ := ih hwfrest d0
        exact ⟨dres, by
          rw [foldlM_cell2_cons_ok o rest d0 d0 (cell2Step_skip d0 o (Bool.not_eq_true _ ▸ hm))]
          exact hres⟩

theorem foldlM_cell2_lookup_preserved (objs : List S3Obj) (p : String)
    (hp : ∀ o ∈ objs, isVidObj o = true → vid_path o.key ≠ p) :
    ∀ d0 dres, objs.foldlM cell2Step d0 = Except.ok dres →
      dictLookup p dres = dictLookup p d0 := by
  induction objs with
  | nil =>
      intro d0 dres h
      rw [List.foldlM_nil] at h
      injection h with h
      rw [h]
  | cons o rest ih =>
      intro d0 dres h
      have hprest : ∀ o' ∈ rest, isVidObj o' = true → vid_path o'.key ≠ p :=
        fun o' h' => hp o' (List.mem_cons_of_mem _ h')
      cases hs : cell2Step d0 o with
      | error e =>
          rw [foldlM_cell2_cons_error _ _ _ _ hs] at h
          exact absurd h (by simp)
      | ok d1 =>
          rw [foldlM_cell2_cons_ok _ _ _ _ hs] at h
          have hrest := ih hprest d1 dres h
          rcases cell2Step_ok_cases d0 d1 o hs with rfl | ⟨hm, l, rfl⟩
          · exact hrest
          · rw [hrest,
              dictLookup_insert_ne p _ l d0 (hp o (List.mem_cons_self _ _) hm)]

theorem foldlM_cell2_keys_nodup (objs : List S3Obj) :
    ∀ d0 dres, objs.foldlM cell2Step d0 = Except.ok dres →
      (d0.map Prod.fst).Nodup → (dres.map Prod.fst).Nodup := by
  induction objs with
  | nil =>
      intro d0 dres h hn
      rw [List.foldlM_nil] at h
      injection h with h
      rwa [← h]
  | cons o rest ih =>
      intro d0 dres h hn
      cases hs : cell2Step d0 o with
      | error e =>
          rw [foldlM_cell2_cons_error _ _ _ _ hs] at h
          exact absurd h (by simp)
      | ok d1 =>
          rw [foldlM_cell2_cons_ok _ _ _ _ hs] at h
          rcases cell2Step_ok_cases d0 d1 o hs with rfl | ⟨_, l, rfl⟩
          · exact ih _ dres h hn
          · exact ih _ dres h (nodup_keys_dictInsert _ l d0 hn)

theorem foldlM_cell2_error_payload (objs : List S3Obj)
    (hwf : ∀ o ∈ objs, isVidObj o = true → ∀ vd, o.payload = Except.ok vd →
      ∃ m t, vd.most_watched_moments.getLast? = some m ∧ m.time_end_ms = some t) :
    ∀ d0 e, objs.foldlM cell2Step d0 = Except.error e →
      ∃ o ∈ objs, o.payload = Except.error e := by
  induction objs with
  | nil =>
      intro d0 e h
      rw [List.foldlM_nil] at h
      simp [pure, Except.pure] at h
  | cons o rest ih =>
      intro d0 e h
      have hwfrest : ∀ o' ∈ rest, isVidObj o' = true → ∀ vd, o'.payload = Except.ok vd →
          ∃ m t, vd.most_watched_moments.getLast? = some m ∧ m.time_end_ms = some t :=
        fun o' h' => hwf o' (List.mem_cons_of_mem _ h')
      by_cases hm : isVidObj o = true
      · cases hp : o.payload with
        | error e' =>
            have hb : pyIn "video_data.json" o.key = true := by simpa [isVidObj] using hm
            have hs : cell2Step d0 o = Except.error e' := by simp [cell2Step, hb, hp]
            rw [foldlM_cell2_cons_error _ _ _ _ hs] at h
            injection h with h
            exact ⟨o, List.mem_cons_self _ _, by rw [hp, h]⟩
        | ok vd =>
            obtain ⟨m, t, hlast, ht⟩ := hwf o (List.mem_cons_self _ _) hm vd hp
            have hl : vid_len vd = Except.ok ((t : ℚ) / 1000) := by
              simp [vid_len, hlast, ht]
            rw [foldlM_cell2_cons_ok _ _ _ _ (cell2Step_store d0 o vd _ hm hp hl)] at h
            obtain ⟨o', ho', hpo'⟩ := ih hwfrest _ _ h
            exact ⟨o', List.mem_cons_of_mem _ ho', hpo'⟩
      · rw [foldlM_cell2_cons_ok _ _ _ _ (cell2Step_skip d0 o (Bool.not_eq_true _ ▸ hm))] at h
        obtain ⟨o', ho', hpo'⟩ := ih hwfrest _ _ h
        exact ⟨o', List.mem_cons_of_mem _ ho', hpo'⟩

theorem foldlM_cell2_entry (obj : S3Obj) (vd : VidData) (l : ℚ)
    (hmatch : isVidObj obj = true)
    (hpayload : obj.payload = Except.ok vd) (hlen : vid_len vd = Except.ok l) :
    ∀ objs : List S3Obj, obj ∈ objs →
      (∀ o ∈ objs, isVidObj o = true →
        ∃ vd' l', o.payload = Except.ok vd' ∧ vid_len vd' = Except.ok l') →
      ((objs.filter isVidObj).map (fun o => vid_path o.key)).Nodup →
      ∀ d0, ∃ dres, objs.foldlM cell2Step d0 = Except.ok dres ∧
        dictLookup (vid_path obj.key) dres = some l := by
  intro objs
  induction objs with
  | nil => intro hmem; exact absurd hmem (List.not_mem_nil _)
  | cons o rest ih =>
      intro hmem hwf hnodup d0
      have hwfrest : ∀ o' ∈ rest, isVidObj o' = true →
          ∃ vd' l', o'.payload = Except.ok vd' ∧ vid_len vd' = Except.ok l' :=
        fun o' h' => hwf o' (List.mem_cons_of_mem _ h')
      rcases List.mem_cons.1 hmem with rfl | hmemr
      · have hstep := cell2Step_store d0 obj vd l hmatch hpayload hlen
        have hfilter : (obj :: rest).filter isVidObj = obj :: rest.filter isVidObj := by
          simp [List.filter_cons, hmatch]
        rw [hfilter, List.map_cons, List.nodup_cons] at hnodup
        have hpres : ∀ o' ∈ rest, isVidObj o' = true →
            vid_path o'.key ≠ vid_path obj.key := by
          intro o' ho' hm' heq
          exact hnodup.1 (List.mem_map.2 ⟨o', List.mem_filter.2 ⟨ho', hm'⟩, heq⟩)
        obtain ⟨dres, hres⟩ :=
          foldlM_cell2_ok_of_wf rest hwfrest (dictInsert (vid_path obj.key) l d0)
        refine ⟨dres, ?_, ?_⟩
        · rw [foldlM_cell2_cons_ok _ _ _ _ hstep]
          exact hres
        · rw [foldlM_cell2_lookup_preserved rest _ hpres _ _ hres,
            dictLookup_insert_self]
      · by_cases hm : isVidObj o = true
        · have hnoduprest : ((rest.filter isVidObj).map (fun o => vid_path o.key)).Nodup := by
            have hfilter : (o :: rest).filter isVidObj = o :: rest.filter isVidObj := by
              simp [List.filter_cons, hm]
            rw [hfilter, List.map_cons, List.nodup_cons] at hnodup
            exact hnodup.2
          obtain ⟨vd', l', hp', hl'⟩ := hwf o (List.mem_cons_self _ _) hm
          have hstep := cell2Step_store d0 o vd' l' hm hp' hl'
          obtain ⟨dres, hres, hlook⟩ :=
            ih hmemr hwfrest hnoduprest (dictInsert (vid_path o.key) l' d0)
          exact ⟨dres, by rw [foldlM_cell2_cons_ok _ _ _ _ hstep]; exact hres, hlook⟩
        · have hnoduprest : ((rest.filter isVidObj).map (fun o => vid_path o.key)).Nodup := by
            have hfilter : (o :: rest).filter isVidObj = rest.filter isVidObj := by
              simp [List.filter_cons, Bool.not_eq_true _ ▸ hm]
            rwa [hfilter] at hnodup
          obtain ⟨dres, hres, hlook⟩ := ih hmemr hwfrest hnoduprest d0
          exact ⟨dres, by
            rw [foldlM_cell2_cons_ok _ _ _ _ (cell2Step_skip d0 o (Bool.not_eq_true _ ▸ hm))]
            exact hres, hlook⟩

theorem foldl_min_mem : ∀ (xs : List ℚ) (x : ℚ), xs.foldl min x ∈ x :: xs
  | [], x => by simp
  | y :: ys, x => by
      rw [List.foldl_cons]
      rcases List.mem_cons.1 (foldl_min_mem ys (min x y)) with h1 | h1
      · rw [h1]
        rcases min_choice x y with h2 | h2 <;> simp [h2]
      · simp [h1]

theorem foldl_min_le : ∀ (xs : List ℚ) (x y : ℚ), y ∈ x :: xs → xs.foldl min x ≤ y
  | [], x, y, hy => by
      rcases List.mem_singleton.1 hy with rfl
      simp
  | z :: zs, x, y, hy => by
      rw [List.foldl_cons]
      rcases List.mem_cons.1 hy with rfl | hy1
      · exact le_trans (foldl_min_le zs _ _ (List.mem_cons_self _ _))
          (min_le_left _ _)
      · rcases List.mem_cons.1 hy1 with rfl | hy2
        · exact le_trans (foldl_min_le zs _ _ (List.mem_cons_self _ _))
            (min_le_right _ _)
        · exact foldl_min_le zs _ _ (List.mem_cons.2 (Or.inr hy2))

theorem foldl_max_mem : ∀ (xs : List ℚ) (x : ℚ), xs.foldl max x ∈ x :: xs
  | [], x => by simp
  | y :: ys, x => by
      rw [List.foldl_cons]
      rcases List.mem_cons.1 (foldl_max_mem ys (max x y)) with h1 | h1
      · rw [h1]
        rcases max_choice x y with h2 | h2 <;> simp [h2]
      · simp [h1]

theorem foldl_max_ge : ∀ (xs : List ℚ) (x y : ℚ), y ∈ x :: xs → y ≤ xs.foldl max x
  | [], x, y, hy => by
      rcases List.mem_singleton.1 hy with rfl
      simp
  | z :: zs, x, y, hy => by
      rw [List.foldl_cons]
      rcases List.mem_cons.1 hy with rfl | hy1
      · exact le_trans (le_max_left _ _)
          (foldl_max_ge zs _ _ (List.mem_cons_self _ _))
      · rcases List.mem_cons.1 hy1 with rfl | hy2
        · exact le_trans (le_max_right _ _)
            (foldl_max_ge zs _ _ (List.mem_cons_self _ _))
        · exact foldl_max_ge zs _ _ (List.mem_cons.2 (Or.inr hy2))

/-! The claims -/

/-- C1: for every callable `func` and argument list, awaiting the
coroutine produced by `to_async(func)` applied to those arguments
resolves to exactly the value `func` returns when called with the same
arguments. -/
theorem to_async_resolves_to_func_value {α β : Type} (func : β → PyResult α)
    (args : β) (executor : Option Executor) (v : α)
    (h : func args = Except.ok v) :
    awaitCoro (to_async func args executor) = Except.ok v := by
  simp [awaitCoro, to_async, run_in_executor, pfuncOf, h]

/-- Witness for C1 at a concrete callable and argument list. -/
theorem to_async_resolves_to_func_value_witness :
    (fun (xs : List Int) => (Except.ok xs.sum : PyResult Int)) [1, 2] =
      Except.ok 3 ∧
    awaitCoro (to_async (fun (xs : List Int) => (Except.ok xs.sum : PyResult Int))
      [1, 2] none) = Except.ok 3 :=
  ⟨rfl, to_async_resolves_to_func_value _ _ none 3 rfl⟩

/-- C2: awaiting the coroutine produced by `to_async(func)` raises
exactly the exceptions `func` raises: it propagates `func`'s exception
unchanged, and raises nothing when `func` returns normally. -/
theorem to_async_propagates_exception {α β : Type} (func : β → PyResult α)
    (args : β) (executor : Option Executor) (e : PyExc) :
    awaitCoro (to_async func args executor) = Except.error e ↔
      func args = Except.error e :=
  Iff.rfl

/-- C3 counterexample: the dispatch of the wrapped blocking call in the
notebook passes no `executor` argument, so `run_in_executor` receives
`None` and submits the work to the event loop's default executor — not
to the `ThreadPoolExecutor(1)` instance bound to `_executor`. -/
theorem call_api_func_not_on_threadpool1 :
    call_api_func.executor = Executor.defaultPool ∧
    call_api_func.executor ≠ the_executor := by
  decide

/-- C3 (amended): every dispatch of the wrapped blocking call in `main`
submits the work to the event loop's default executor; the
`ThreadPoolExecutor(1)` instance bound to `_executor` is never used, so
the four concurrent calls are not serialized on it. -/
theorem main_dispatches_use_default_executor :
    mainSubmissions.map Submission.executor =
      [Executor.defaultPool, Executor.defaultPool, Executor.defaultPool,
        Executor.defaultPool] ∧
    mainSubmissions.all (fun s => s.executor != the_executor) = true := by
  constructor
  · rfl
  · decide

/-- C4: for every completion order of the four concurrently awaited
calls, `asyncio.gather` returns the results in submission order, so
`main` prints `[1, 1, 1, 1]` with the `i`-th element coming from the
`i`-th submitted call. -/
theorem main_results_in_submission_order (order : List Nat)
    (h : order.Perm (List.range 4)) :
    mainPrinted order =
      [Except.ok 1, Except.ok 1, Except.ok 1, Except.ok 1] ∧
    mainPrinted order = mainSubmissions.map awaitCoro := by
  have h4 := gatherRun_perm (Except.ok 0) (mainSubmissions.map awaitCoro) order h
  exact ⟨h4.trans rfl, h4⟩

/-- Witness for C4 at a concrete out-of-submission-order completion
order. -/
theorem main_results_in_submission_order_witness :
    ([2, 0, 3, 1] : List Nat).Perm (List.range 4) ∧
    mainPrinted [2, 0, 3, 1] =
      [Except.ok 1, Except.ok 1, Except.ok 1, Except.ok 1] :=
  ⟨by decide, (main_results_in_submission_order [2, 0, 3, 1] (by decide)).1⟩

/-- C5: for every S3 object whose key contains `'video_data.json'`, the
`all_data` dictionary holds an entry keyed by the object's logical video
path (the key with its last `/`-component removed) whose value is the
`time_end_ms` of the last `most_watched_moments` element divided by 1000
(under the side conditions making the loop complete: every matching
object downloads and parses to a payload whose duration is computable,
and logical paths of matching objects are pairwise distinct). -/
theorem all_data_stores_duration (objs : List S3Obj) (obj : S3Obj)
    (vd : VidData) (m : Moment) (t : Int)
    (hmem : obj ∈ objs)
    (hmatch : pyIn "video_data.json" obj.key = true)
    (hpayload : obj.payload = Except.ok vd)
    (hlast : vd.most_watched_moments.getLast? = some m)
    (ht : m.time_end_ms = some t)
    (hwf : ∀ o ∈ objs, isVidObj o = true →
      ∃ vd' l', o.payload = Except.ok vd' ∧ vid_len vd' = Except.ok l')
    (hnodup : ((objs.filter isVidObj).map (fun o => vid_path o.key)).Nodup) :
    ∃ dict, all_data objs = Except.ok dict ∧
      dictLookup (vid_path obj.key) dict = some ((t : ℚ) / 1000) := by
  have hlen : vid_len vd = Except.ok ((t : ℚ) / 1000) := by
    simp [vid_len, hlast, ht]
  exact foldlM_cell2_entry obj vd _ hmatch hpayload hlen objs hmem hwf hnodup []

/-- Witness for C5 at a concrete bucket listing. -/
theorem all_data_stores_duration_witness :
    ∃ dict,
      all_data [⟨"ch/vid/video_data.json", Except.ok ⟨[⟨some 507000⟩]⟩⟩] =
        Except.ok dict ∧
      dictLookup (vid_path "ch/vid/video_data.json") dict =
        some (((507000 : Int) : ℚ) / 1000) :=
  all_data_stores_duration _ _ _ _ _ (List.mem_singleton.2 rfl) (by decide)
    rfl rfl rfl
    (by
      intro o ho hm
      rcases List.mem_singleton.1 ho with rfl
      exact ⟨⟨[⟨some 507000⟩]⟩, ((507000 : Int) : ℚ) / 1000, rfl, rfl⟩)
    (by decide)

/-- C6 (amended): the aggregation groups the joined rows by
`category_id` and computes, over each group's `vid_len` values: `min`
(the least value), `max` (the greatest value), `count` (the group size),
`mean` (sum over size), `median` (middle of the sorted values, averaging
the two middles for even size) — each its standard definition — and for
`std` the *sample* standard deviation (square root of the
Bessel-corrected variance with `ddof = 1`), which is `NaN` for a
single-element group, rather than the population standard deviation. -/
theorem aggregate_group_statistics (rows : List FinalRow) (c : Int)
    (hne : groupValues rows c ≠ []) :
    (∃ m, (aggregate rows c).min = some m ∧ m ∈ groupValues rows c ∧
      ∀ x ∈ groupValues rows c, m ≤ x) ∧
    (∃ m, (aggregate rows c).max = some m ∧ m ∈ groupValues rows c ∧
      ∀ x ∈ groupValues rows c, x ≤ m) ∧
    (aggregate rows c).count = (groupValues rows c).length ∧
    (aggregate rows c).mean =
      (groupValues rows c).sum / (groupValues rows c).length ∧
    (∀ s : List ℚ, s.Perm (groupValues rows c) → s.Sorted (· ≤ ·) →
      (aggregate rows c).median =
        if s.length % 2 = 1 then s.getD (s.length / 2) 0
        else (s.getD (s.length / 2 - 1) 0 + s.getD (s.length / 2) 0) / 2) ∧
    (2 ≤ (groupValues rows c).length →
      (aggregate rows c).std_sq = some
        (((groupValues rows c).map
            (fun x => (x - aggMean (groupValues rows c)) ^ 2)).sum /
          (((groupValues rows c).length : ℚ) - 1))) ∧
    ((groupValues rows c).length = 1 → (aggregate rows c).std_sq = none) := by
  obtain ⟨x, xs, hg⟩ : ∃ x xs, groupValues rows c = x :: xs := by
    cases hg : groupValues rows c with
    | nil => exact absurd hg hne
    | cons a as => exact ⟨a, as, rfl⟩
  refine ⟨?_, ?_, rfl, rfl, ?_, ?_, ?_⟩
  · refine ⟨xs.foldl min x, ?_, ?_, ?_⟩
    · show aggMin (groupValues rows c) = _
      rw [hg, aggMin]
    · rw [hg]
      exact foldl_min_mem xs x
    · rw [hg]
      exact fun y hy => foldl_min_le xs x y hy
  · refine ⟨xs.foldl max x, ?_, ?_, ?_⟩
    · show aggMax (groupValues rows c) = _
      rw [hg, aggMax]
    · rw [hg]
      exact foldl_max_mem xs x
    · rw [hg]
      exact fun y hy => foldl_max_ge xs x y hy
  · intro s hperm hsorted
    have hs : s = List.insertionSort (· ≤ ·) (groupValues rows c) :=
      List.eq_of_perm_of_sorted
        (hperm.trans (List.perm_insertionSort _ _).symm) hsorted
        (List.sorted_insertionSort _ _)
    show aggMedian (groupValues rows c) = _
    rw [aggMedian, ← hs]
  · intro h2
    show aggVar (groupValues rows c) = _
    rw [aggVar, if_neg (by omega)]
  · intro h1
    show aggVar (groupValues rows c) = _
    rw [aggVar, if_pos (by omega)]

/-- Witness for C6 at the notebook's category-20 rows. -/
theorem aggregate_group_statistics_witness :
    groupValues [⟨"a", 645, 20⟩, ⟨"b", 978, 20⟩] 20 ≠ [] ∧
    ((∃ m, (aggregate [⟨"a", 645, 20⟩, ⟨"b", 978, 20⟩] 20).min = some m ∧
        m ∈ groupValues [⟨"a", 645, 20⟩, ⟨"b", 978, 20⟩] 20 ∧
        ∀ x ∈ groupValues [⟨"a", 645, 20⟩, ⟨"b", 978, 20⟩] 20, m ≤ x) ∧
      (∃ m, (aggregate [⟨"a", 645, 20⟩, ⟨"b", 978, 20⟩] 20).max = some m ∧
        m ∈ groupValues [⟨"a", 645, 20⟩, ⟨"b", 978, 20⟩] 20 ∧
        ∀ x ∈ groupValues [⟨"a", 645, 20⟩, ⟨"b", 978, 20⟩] 20, x ≤ m) ∧
      (aggregate [⟨"a", 645, 20⟩, ⟨"b", 978, 20⟩] 20).count =
        (groupValues [⟨"a", 645, 20⟩, ⟨"b", 978, 20⟩] 20).length ∧
      (aggregate [⟨"a", 645, 20⟩, ⟨"b", 978, 20⟩] 20).mean =
        (groupValues [⟨"a", 645, 20⟩, ⟨"b", 978, 20⟩] 20).sum /
          (groupValues [⟨"a", 645, 20⟩, ⟨"b", 978, 20⟩] 20).length ∧
      (∀ s : List ℚ,
        s.Perm (groupValues [⟨"a", 645, 20⟩, ⟨"b", 978, 20⟩] 20) →
        s.Sorted (· ≤ ·) →
        (aggregate [⟨"a", 645, 20⟩, ⟨"b", 978, 20⟩] 20).median =
          if s.length % 2 = 1 then s.getD (s.length / 2) 0
          else (s.getD (s.length / 2 - 1) 0 + s.getD (s.length / 2) 0) / 2) ∧
      (2 ≤ (groupValues [⟨"a", 645, 20⟩, ⟨"b", 978, 20⟩] 20).length →
        (aggregate [⟨"a", 645, 20⟩, ⟨"b", 978, 20⟩] 20).std_sq = some
          (((groupValues [⟨"a", 645, 20⟩, ⟨"b", 978, 20⟩] 20).map
              (fun x =>
                (x - aggMean (groupValues [⟨"a", 645, 20⟩, ⟨"b", 978, 20⟩] 20)) ^ 2)).sum /
            (((groupValues [⟨"a", 645, 20⟩, ⟨"b", 978, 20⟩] 20).length : ℚ) - 1))) ∧
      ((groupValues [⟨"a", 645, 20⟩, ⟨"b", 978, 20⟩] 20).length = 1 →
        (aggregate [⟨"a", 645, 20⟩, ⟨"b", 978, 20⟩] 20).std_sq = none)) :=
  ⟨by decide, aggregate_group_statistics [⟨"a", 645, 20⟩, ⟨"b", 978, 20⟩] 20 (by decide)⟩

/-- C6 counterexample: pandas `std` is not the standard (population)
standard deviation. On the notebook's category-20 group `{645, 978}` the
aggregation's squared `std` is `110889/2` (sample variance, `ddof = 1`)
while the squared population standard deviation is `110889/4`, so the
two standard deviations differ; and on the singleton category-26 group
`{529}` the aggregation yields no value at all (`NaN`), while the
population standard deviation is `0`. -/
theorem agg_std_differs_from_population_std :
    (aggregate [⟨"a", 645, 20⟩, ⟨"b", 978, 20⟩] 20).std_sq =
      some (110889 / 2) ∧
    popVar (groupValues [⟨"a", 645, 20⟩, ⟨"b", 978, 20⟩] 20) = 110889 / 4 ∧
    ((110889 : ℚ) / 2) ≠ ((110889 : ℚ) / 4) ∧
    (aggregate [⟨"c", 529, 26⟩] 26).std_sq = none ∧
    popVar (groupValues [⟨"c", 529, 26⟩] 26) = 0 := by
  have hg : groupValues [⟨"a", 645, 20⟩, ⟨"b", 978, 20⟩] 20 =
      ([645, 978] : List ℚ) := rfl
  have hg1 : groupValues [⟨"c", 529, 26⟩] 26 = ([529] : List ℚ) := rfl
  refine ⟨?_, ?_, by norm_num, ?_, ?_⟩
  · show aggVar (groupValues [⟨"a", 645, 20⟩, ⟨"b", 978, 20⟩] 20) = _
    rw [hg]
    norm_num [aggVar, aggMean]
  · rw [hg]
    norm_num [popVar, aggMean]
  · show aggVar (groupValues [⟨"c", 529, 26⟩] 26) = _
    rw [hg1]
    norm_num [aggVar]
  · rw [hg1]
    norm_num [popVar, aggMean]

/-- C7: the notebook issues exactly one SQL query — `SELECT * FROM
autoshorts.videos` — keeps only the `s3_path` and `category_id` columns,
and joins the duration table against it on `s3_path`: every row of
`final_df` carries the `category_id` fetched from the table for its
`s3_path`, together with the duration of a `df` row for that path. -/
theorem single_query_join_carries_category (videos : List VideoRow)
    (df : List DfRow) (row : FinalRow)
    (hrow : row ∈ final_df df (df_vids videos)) :
    sqlQueries = ["SELECT * FROM autoshorts.videos"] ∧
    sqlQueries.length = 1 ∧
    (∃ v ∈ videos, v.s3_path = row.s3_path ∧ row.category_id = v.category_id) ∧
    (∃ r ∈ df, r.s3_path = row.s3_path ∧ r.vid_len = row.vid_len) := by
  refine ⟨rfl, rfl, ?_⟩
  simp only [final_df, df_vids, List.mem_flatMap, List.mem_map,
    List.mem_filter] at hrow
  obtain ⟨r, hr, p, ⟨⟨⟨v, hv, hvp⟩, hbeq⟩, hmk⟩⟩ := hrow
  subst hvp
  rw [← hmk]
  have hpath : v.s3_path = r.s3_path := by
    simpa using hbeq
  exact ⟨⟨v, hv, by simp [hpath], by simp⟩, ⟨r, hr, by simp, by simp⟩⟩

/-- Witness for C7 at a concrete table and DataFrame. -/
theorem single_query_join_carries_category_witness :
    (⟨"a", 507, 17⟩ : FinalRow) ∈
      final_df [⟨"a", 507⟩] (df_vids [⟨"a", 17, ["title"]⟩]) ∧
    (sqlQueries = ["SELECT * FROM autoshorts.videos"] ∧
      sqlQueries.length = 1 ∧
      (∃ v ∈ [(⟨"a", 17, ["title"]⟩ : VideoRow)],
        v.s3_path = (⟨"a", 507, 17⟩ : FinalRow).s3_path ∧
        (⟨"a", 507, 17⟩ : FinalRow).category_id = v.category_id) ∧
      (∃ r ∈ [(⟨"a", 507⟩ : DfRow)],
        r.s3_path = (⟨"a", 507, 17⟩ : FinalRow).s3_path ∧
        r.vid_len = (⟨"a", 507, 17⟩ : FinalRow).vid_len)) :=
  have hmem : (⟨"a", 507, 17⟩ : FinalRow) ∈
      final_df [⟨"a", 507⟩] (df_vids [⟨"a", 17, ["title"]⟩]) := by
    simp [final_df, df_vids]
  ⟨hmem, single_query_join_carries_category _ _ _ hmem⟩

/-- C8: no operation in the notebooks catches exceptions — a failure
raised by any iteration of the `all_data` loop propagates out of the
cell unchanged (terminating it), and an exception raised by a callable
wrapped with `to_async` propagates out of the `await` unchanged. -/
theorem failures_propagate_unhandled (pre post : List S3Obj) (bad : S3Obj)
    (e : PyExc) (dpre : List (String × ℚ))
    (hpre : pre.foldlM cell2Step [] = Except.ok dpre)
    (hbad : ∀ d, cell2Step d bad = Except.error e) :
    all_data (pre ++ bad :: post) = Except.error e ∧
    ∀ (func : Unit → PyResult Int) (ex : Option Executor) (e' : PyExc),
      func () = Except.error e' →
      awaitCoro (to_async func () ex) = Except.error e' := by
  constructor
  · have happ : (pre ++ bad :: post).foldlM cell2Step [] =
        (bad :: post).foldlM cell2Step dpre := by
      rw [List.foldlM_append, hpre]
      rfl
    rw [all_data, happ, foldlM_cell2_cons_error _ _ _ _ (hbad dpre)]
  · intro func ex e' hf
    simp [awaitCoro, to_async, run_in_executor, pfuncOf, hf]

/-- Witness for C8: a bucket whose second object fails to download. -/
theorem failures_propagate_unhandled_witness :
    ([⟨"p/video_data.json", Except.ok ⟨[⟨some 1000⟩]⟩⟩] :
        List S3Obj).foldlM cell2Step [] =
      Except.ok [("p", ((1000 : Int) : ℚ) / 1000)] ∧
    all_data
      ([⟨"p/video_data.json", Except.ok ⟨[⟨some 1000⟩]⟩⟩] ++
        ⟨"q/video_data.json", Except.error (PyExc.exc "404")⟩ ::
          [⟨"r/video_data.json", Except.ok ⟨[⟨some 2000⟩]⟩⟩]) =
      Except.error (PyExc.exc "404") :=
  have hbad : ∀ d, cell2Step d
      ⟨"q/video_data.json", Except.error (PyExc.exc "404")⟩ =
      Except.error (PyExc.exc "404") := by
    intro d
    simp [cell2Step,
      (by decide : pyIn "video_data.json" "q/video_data.json" = true)]
  have hpre : ([⟨"p/video_data.json", Except.ok ⟨[⟨some 1000⟩]⟩⟩] :
      List S3Obj).foldlM cell2Step [] =
      Except.ok [("p", ((1000 : Int) : ℚ) / 1000)] := rfl
  ⟨hpre, (failures_propagate_unhandled _ _ _ _ _ hpre hbad).1⟩

/-- C9: under the precondition that every downloaded `video_data.json`
has a non-empty `most_watched_moments` list whose last element carries
`time_end_ms` (and download/parse failures are not themselves
`IndexError`/`KeyError`), the `[-1]` indexing and key lookup never fail:
the loop never ends in `IndexError` or `KeyError`. For inputs violating
the precondition the lookup fails. -/
theorem vid_len_indexing_safe (objs : List S3Obj)
    (hwf : ∀ o ∈ objs, isVidObj o = true → ∀ vd, o.payload = Except.ok vd →
      ∃ m t, vd.most_watched_moments.getLast? = some m ∧
        m.time_end_ms = some t)
    (hdl : ∀ o ∈ objs, ∀ e, o.payload = Except.error e →
      e ≠ indexError ∧ e ≠ keyError) :
    (all_data objs ≠ Except.error indexError ∧
      all_data objs ≠ Except.error keyError) ∧
    vid_len ⟨[]⟩ = Except.error indexError ∧
    vid_len ⟨[⟨none⟩]⟩ = Except.error keyError := by
  refine ⟨⟨?_, ?_⟩, rfl, rfl⟩
  · intro h
    obtain ⟨o, ho, hpo⟩ := foldlM_cell2_error_payload objs hwf [] indexError h
    exact (hdl o ho indexError hpo).1 rfl
  · intro h
    obtain ⟨o, ho, hpo⟩ := foldlM_cell2_error_payload objs hwf [] keyError h
    exact (hdl o ho keyError hpo).2 rfl

/-- Witness for C9 at a concrete bucket listing. -/
theorem vid_len_indexing_safe_witness :
    (all_data [⟨"p/video_data.json", Except.ok ⟨[⟨some 1000⟩]⟩⟩,
        ⟨"readme.md", Except.error (PyExc.exc "404")⟩] ≠
      Except.error indexError ∧
    all_data [⟨"p/video_data.json", Except.ok ⟨[⟨some 1000⟩]⟩⟩,
        ⟨"readme.md", Except.error (PyExc.exc "404")⟩] ≠
      Except.error keyError) ∧
    vid_len ⟨[]⟩ = Except.error indexError ∧
    vid_len ⟨[⟨none⟩]⟩ = Except.error keyError :=
  vid_len_indexing_safe _
    (by
      intro o ho hm vd hvd
      rcases List.mem_cons.1 ho with rfl | ho1
      · injection hvd with hvd
        subst hvd
        exact ⟨⟨some 1000⟩, 1000, rfl, rfl⟩
      · rcases List.mem_singleton.1 ho1 with rfl
        exact absurd hvd (by simp)
      )
    (by
      intro o ho e hpe
      rcases List.mem_cons.1 ho with rfl | ho1
      · exact absurd hpe (by simp)
      · rcases List.mem_singleton.1 ho1 with rfl
        injection hpe with hpe
        subst hpe
        exact ⟨by decide, by decide⟩)

/-- C10: the `all_data` dictionary has at most one entry per logical
video path — a later matching object with the same path overwrites the
earlier entry (last write wins) — so the DataFrame built from it has
pairwise distinct `s3_path` values. -/
theorem all_data_paths_distinct (objs : List S3Obj)
    (dict : List (String × ℚ)) (h : all_data objs = Except.ok dict) :
    ((dfOf dict).map DfRow.s3_path).Nodup ∧
    ∀ k v d, dictLookup k (dictInsert k v d) = some v := by
  refine ⟨?_, fun k v d => dictLookup_insert_self k v d⟩
  have h1 := foldlM_cell2_keys_nodup objs [] dict h (by simp)
  have h2 : (dfOf dict).map DfRow.s3_path = dict.map Prod.fst := by
    simp [dfOf, List.map_map]
  rw [h2]
  exact h1

/-- Witness for C10: two objects sharing a logical path; the second
duration wins and the resulting keys are distinct. -/
theorem all_data_paths_distinct_witness :
    all_data [⟨"x/video_data.json", Except.ok ⟨[⟨some 1000⟩]⟩⟩,
        ⟨"x/video_data.json", Except.ok ⟨[⟨some 2000⟩]⟩⟩] =
      Except.ok [("x", ((2000 : Int) : ℚ) / 1000)] ∧
    (((dfOf [("x", ((2000 : Int) : ℚ) / 1000)]).map DfRow.s3_path).Nodup ∧
      ∀ k v d, dictLookup k (dictInsert k v d) = some v) :=
  have h : all_data [⟨"x/video_data.json", Except.ok ⟨[⟨some 1000⟩]⟩⟩,
      ⟨"x/video_data.json", Except.ok ⟨[⟨some 2000⟩]⟩⟩] =
      Except.ok [("x", ((2000 : Int) : ℚ) / 1000)] := rfl
  ⟨h, all_data_paths_distinct _ _ h⟩

end AutoShorts
